import Mathlib

/-!
Verification of the `ruche` chess engine core (`src/board.rs`).

The Rust source is shallowly embedded: the mailbox `[u16; 64]` becomes a
`List Nat` of length 64, `u64` bitboards become `Nat` values below `2 ^ 64`,
and every operation that can panic in Rust (array indexing out of range,
`assert!` failures, `todo!()`, `usize` underflow, invalid promotion) is
modelled in the `Option` monad, `none` standing for a panic.
-/

namespace Ruche

/-- `PieceColor` from `board.rs` (White = 0, Black = 8 as a bit offset). -/
inductive PieceColor
  | White
  | Black
deriving DecidableEq

/-- The numeric discriminant of `PieceColor` used when composing piece codes. -/
def PieceColor.code : PieceColor → Nat
  | .White => 0
  | .Black => 8

/-- `PieceType` from `board.rs`; `None` is the no-piece sentinel. -/
inductive PieceType
  | Pawn
  | Knight
  | Bishop
  | Rook
  | Queen
  | King
  | None
deriving DecidableEq

/-- The numeric discriminant of `PieceType` (1..6; `None` is `-1 as u16`). -/
def PieceType.code : PieceType → Nat
  | .Pawn => 1
  | .Knight => 2
  | .Bishop => 3
  | .Rook => 4
  | .Queen => 5
  | .King => 6
  | .None => 65535

/-- `Piece`: a (color, type) pair. -/
structure Piece where
  piece_color : PieceColor
  piece_type : PieceType
deriving DecidableEq

/-- `impl From<u16> for Piece`: mask `0b1000` for color, `0b0111` for type. -/
def Piece.fromCode (value : Nat) : Piece :=
  { piece_color := if value &&& 8 = 0 then .White else .Black
    piece_type :=
      match value &&& 7 with
      | 1 => .Pawn
      | 2 => .Knight
      | 3 => .Bishop
      | 4 => .Rook
      | 5 => .Queen
      | 6 => .King
      | _ => .None }

/-- `Piece::is_none`. -/
def Piece.is_none (p : Piece) : Bool := p.piece_type = .None

/-- `Coordinate`: (x, y) with both in 0..7 by construction; (0,0) is index 0. -/
structure Coordinate where
  x : Nat
  y : Nat
deriving DecidableEq

/-- `SafeCoordinate`: signed coordinates used to probe possibly-off-board
squares during generation. -/
structure SafeCoordinate where
  x : Int
  y : Int
deriving DecidableEq

/-- `SafeCoordinate::is_out_of_bounds`. -/
def SafeCoordinate.is_out_of_bounds (c : SafeCoordinate) : Bool :=
  c.x < 0 || c.x > 7 || c.y < 0 || c.y > 7

/-- `SafeCoordinate::to_coordinate`; the Rust version asserts in-bounds, so
`none` models that panic. -/
def SafeCoordinate.to_coordinate (c : SafeCoordinate) : Option Coordinate :=
  if c.is_out_of_bounds then none else some ⟨c.x.toNat, c.y.toNat⟩

/-- `MoveType` from `board.rs`, payloads included. -/
inductive MoveType
  | None
  | PawnPush (promotion_piece : Option PieceType)
  | PawnDoublePush
  | PawnCapture (promotion_piece : Option PieceType)
  | PawnEnPassant (captured : Coordinate)
  | QueenMove
  | RookMove
  | BishopMove
  | KnightMove
  | KingMove
  | CastelKingSide
  | CastelQueenSide
deriving DecidableEq

/-- `Move`. Rust's field `from` is a Lean keyword, hence `fromIdx`/`toIdx`. -/
structure Move where
  fromIdx : Nat
  toIdx : Nat
  move_type : MoveType
deriving DecidableEq

/-- `BitBoard`: a 64-bit integer set over board squares. -/
structure BitBoard where
  inner : Nat
deriving DecidableEq

/-- All 64 bits set, i.e. `u64::MAX`, used to model `!(1u64 << idx)`. -/
def u64Max : Nat := 2 ^ 64 - 1

/-- `BitBoard::set_bit`. -/
def BitBoard.set_bit (b : BitBoard) (idx : Nat) : BitBoard :=
  ⟨b.inner ||| (1 <<< idx)⟩

/-- `BitBoard::clear_bit` (`inner &= !(1 << idx)`). -/
def BitBoard.clear_bit (b : BitBoard) (idx : Nat) : BitBoard :=
  ⟨b.inner &&& (u64Max ^^^ (1 <<< idx))⟩

/-- `BitBoard::get_bit`. -/
def BitBoard.get_bit (b : BitBoard) (idx : Nat) : Bool :=
  (b.inner &&& (1 <<< idx)) != 0

/-- `Board`: the full position state of `board.rs`. -/
structure Board where
  white_pawn_bitboard : BitBoard
  white_rook_bitboard : BitBoard
  white_knight_bitboard : BitBoard
  white_bishop_bitboard : BitBoard
  white_queen_bitboard : BitBoard
  white_king_bitboard : BitBoard
  black_pawn_bitboard : BitBoard
  black_rook_bitboard : BitBoard
  black_knight_bitboard : BitBoard
  black_bishop_bitboard : BitBoard
  black_queen_bitboard : BitBoard
  black_king_bitboard : BitBoard
  black_control_bitboard : BitBoard
  white_control_bitboard : BitBoard
  white_castling_right : BitBoard
  black_castling_right : BitBoard
  board : List Nat
  current_moves : List Move
  move_history : List Move
  white_current_moves : List Move
  black_current_moves : List Move
  is_white_turn : Bool
deriving DecidableEq

/-- `Board::new`. -/
def Board.new : Board :=
  { board := List.replicate 64 0
    is_white_turn := true
    current_moves := []
    white_current_moves := []
    black_current_moves := []
    move_history := []
    white_pawn_bitboard := ⟨0⟩
    white_rook_bitboard := ⟨0⟩
    white_knight_bitboard := ⟨0⟩
    white_bishop_bitboard := ⟨0⟩
    white_queen_bitboard := ⟨0⟩
    white_king_bitboard := ⟨0⟩
    black_pawn_bitboard := ⟨0⟩
    black_rook_bitboard := ⟨0⟩
    black_knight_bitboard := ⟨0⟩
    black_bishop_bitboard := ⟨0⟩
    black_queen_bitboard := ⟨0⟩
    black_king_bitboard := ⟨0⟩
    white_control_bitboard := ⟨0⟩
    black_control_bitboard := ⟨0⟩
    white_castling_right := ⟨129⟩
    black_castling_right := ⟨9295429630892703744⟩ }

/-- `Board::get_turn`. -/
def Board.get_turn (b : Board) : PieceColor :=
  if b.is_white_turn then .White else .Black

/-- `Board::toggle_turn`. -/
def Board.toggle_turn (b : Board) : Board :=
  { b with is_white_turn := !b.is_white_turn }

/-- `Board::get_piece_at_index`; indexing `[u16; 64]` panics exactly when the
index is 64 or more, which `List.get?` reproduces on length-64 mailboxes. -/
def Board.get_piece_at_index (b : Board) (idx : Nat) : Option Piece :=
  (b.board.get? idx).map Piece.fromCode

/-- `Board::get_square`; the Rust version asserts the result is below 64. -/
def get_square (x y : Nat) : Option Nat :=
  if y * 8 + x < 64 then some (y * 8 + x) else none

/-- `Board::get_square_isize`. -/
def get_square_isize (x y : Int) : Option Nat :=
  let r := y * 8 + x
  if 0 ≤ r ∧ r < 64 then some r.toNat else none

/-- `Board::get_index_from_coordinates`. -/
def get_index_from_coordinates (co : Coordinate) : Option Nat :=
  get_square co.x co.y

/-- `Board::get_coordinates_from_index`. -/
def get_coordinates_from_index (idx : Nat) : Coordinate :=
  ⟨idx % 8, idx / 8⟩

/-- `Board::get_safe_coordinates_from_index`. -/
def get_safe_coordinates_from_index (idx : Nat) : SafeCoordinate :=
  ⟨(idx % 8 : Nat), (idx / 8 : Nat)⟩

/-- Reads the mailbox at `idx` and decodes, as `Piece::from(board[idx])`. -/
def read_piece (board : List Nat) (idx : Nat) : Option Piece :=
  (board.get? idx).map Piece.fromCode

/-- `Board::get_moves_for_turn`. -/
def Board.get_moves_for_turn (b : Board) : List Move :=
  if b.is_white_turn then b.white_current_moves else b.black_current_moves

/-- `Board::is_move_avaliable`: the first generated move of the side to move
matching `(from, to)`. -/
def Board.is_move_avaliable (b : Board) (mfrom mto : Nat) : Option Move :=
  b.get_moves_for_turn.find? (fun m => m.fromIdx == mfrom && m.toIdx == mto)

/-- `Board::all_moves`. -/
def Board.all_moves (b : Board) : List Move :=
  b.white_current_moves ++ b.black_current_moves

/-- The ray walker of `generate_moves_for_direction` (`'beyond: loop`). The
Rust loop is unbounded, but every call site uses a direction with a nonzero
unit component, so at most 8 iterations happen before the coordinate leaves
the board; the fuel is therefore never exhausted at those call sites. -/
def ray_cast (board : List Nat) (current_piece_idx : Nat) (piece : Piece)
    (dir : SafeCoordinate) (move_type : MoveType) :
    Nat → SafeCoordinate → Option (List Move)
  | 0, _ => some []
  | fuel + 1, cur =>
    if cur.is_out_of_bounds then some []
    else do
      let cluc ← cur.to_coordinate
      let sq ← get_square cluc.x cluc.y
      let current_look_up_piece ← read_piece board sq
      if ¬ current_look_up_piece.is_none then
        if current_look_up_piece.piece_color = piece.piece_color then some []
        else do
          let ti ← get_index_from_coordinates cluc
          some [⟨current_piece_idx, ti, move_type⟩]
      else do
        let ti ← get_index_from_coordinates cluc
        let rest ← ray_cast board current_piece_idx piece dir move_type fuel
          ⟨cur.x + dir.x, cur.y + dir.y⟩
        some (⟨current_piece_idx, ti, move_type⟩ :: rest)

/-- The direction loop of `generate_moves_for_direction`. -/
def gmfd_loop (board : List Nat) (current_piece_idx : Nat) (piece : Piece)
    (move_type : MoveType) (piece_cord : SafeCoordinate) :
    List SafeCoordinate → Option (List Move)
  | [] => some []
  | dir :: dirs => do
    let ms ← ray_cast board current_piece_idx piece dir move_type 8
      ⟨piece_cord.x + dir.x, piece_cord.y + dir.y⟩
    let rest ← gmfd_loop board current_piece_idx piece move_type piece_cord dirs
    some (ms ++ rest)

/-- `Board::generate_moves_for_direction`. -/
def generate_moves_for_direction (board : List Nat) (current_piece_idx : Nat)
    (piece : Piece) (directions : List SafeCoordinate) (move_type : MoveType) :
    Option (List Move) :=
  gmfd_loop board current_piece_idx piece move_type
    (get_safe_coordinates_from_index current_piece_idx) directions

/-- `Board::generate_queen_moves`. -/
def generate_queen_moves (board : List Nat) (current_piece_idx : Nat)
    (piece : Piece) : Option (List Move) :=
  if piece.piece_type ≠ .Queen then none
  else
    generate_moves_for_direction board current_piece_idx piece
      [⟨1, 1⟩, ⟨-1, 1⟩, ⟨1, -1⟩, ⟨-1, -1⟩, ⟨0, 1⟩, ⟨0, -1⟩, ⟨1, 0⟩, ⟨-1, 0⟩]
      .QueenMove

/-- `Board::generate_bishop_moves`. -/
def generate_bishop_moves (board : List Nat) (current_piece_idx : Nat)
    (piece : Piece) : Option (List Move) :=
  if piece.piece_type ≠ .Bishop then none
  else
    generate_moves_for_direction board current_piece_idx piece
      [⟨1, 1⟩, ⟨-1, 1⟩, ⟨1, -1⟩, ⟨-1, -1⟩] .BishopMove

/-- `Board::generate_rook_moves`. -/
def generate_rook_moves (board : List Nat) (current_piece_idx : Nat)
    (piece : Piece) : Option (List Move) :=
  if ¬ (piece.piece_type = .Rook ∨ piece.piece_type = .Queen) then none
  else
    generate_moves_for_direction board current_piece_idx piece
      [⟨0, 1⟩, ⟨0, -1⟩, ⟨1, 0⟩, ⟨-1, 0⟩] .RookMove

/-- The offset loop of `generate_knight_moves`. -/
def knight_loop (board : List Nat) (current_piece_idx : Nat) (piece : Piece)
    (current_cord : SafeCoordinate) : List SafeCoordinate → Option (List Move)
  | [] => some []
  | dir :: dirs => do
    let target_cord : SafeCoordinate :=
      ⟨current_cord.x + dir.x, current_cord.y + dir.y⟩
    if target_cord.is_out_of_bounds then
      knight_loop board current_piece_idx piece current_cord dirs
    else do
      let tc ← target_cord.to_coordinate
      let sq ← get_square tc.x tc.y
      let target_piece ← read_piece board sq
      if target_piece.piece_type ≠ .None ∧
          target_piece.piece_color = piece.piece_color then
        knight_loop board current_piece_idx piece current_cord dirs
      else do
        let rest ← knight_loop board current_piece_idx piece current_cord dirs
        some (⟨current_piece_idx, sq, .KnightMove⟩ :: rest)

/-- `Board::generate_knight_moves`. -/
def generate_knight_moves (board : List Nat) (current_piece_idx : Nat)
    (piece : Piece) : Option (List Move) :=
  if piece.piece_type ≠ .Knight then none
  else
    knight_loop board current_piece_idx piece
      (get_safe_coordinates_from_index current_piece_idx)
      [⟨1, 2⟩, ⟨-1, 2⟩, ⟨1, -2⟩, ⟨-1, -2⟩, ⟨2, 1⟩, ⟨-2, 1⟩, ⟨2, -1⟩, ⟨-2, -1⟩]

/-- The path scan `all_clear` nested in `generate_king_castle_moves`. The
Rust version indexes a `[u16; 64]` array at the constant path squares, all
below 64, where indexing cannot fail, so it is modelled totally. -/
def all_clear (path : List Nat) (board : List Nat) (opp : BitBoard) : Bool :=
  match path with
  | [] => true
  | x :: xs =>
    if ¬ (Piece.fromCode (board.getD x 0)).is_none ∨ opp.get_bit x then false
    else all_clear xs board opp

/-- `Board::generate_king_castle_moves`. Note that the king-home square and
the path squares are keyed on the piece's color, while the rook piece, the
corner squares and the opponent control bitboard are keyed on `is_white_turn`,
exactly as in the source. The corner reads index the constant squares
0/7/56/63 of the `[u16; 64]` mailbox and cannot fail, so they are modelled
totally. -/
def generate_king_castle_moves (board : List Nat) (is_white_turn : Bool)
    (white_control black_control : BitBoard) (current_piece_idx : Nat)
    (piece : Piece) : List Move :=
  let expected_king_pos : Nat := if piece.piece_color = .White then 3 else 59
  if current_piece_idx ≠ expected_king_pos then []
  else
    let king_side_path_idx : List Nat :=
      if piece.piece_color = .White then [1, 2] else [56, 57]
    let queen_side_path_idx : List Nat :=
      if piece.piece_color = .White then [4, 5, 6] else [60, 61, 62]
    let rook : Piece :=
      if is_white_turn then ⟨.White, .Rook⟩ else ⟨.Black, .Rook⟩
    let h_file_idx : Nat := if is_white_turn then 0 else 56
    let a_file_idx : Nat := if is_white_turn then 7 else 63
    let opp_control_bitboard : BitBoard :=
      if is_white_turn then black_control else white_control
    let ks : List Move :=
      if Piece.fromCode (board.getD h_file_idx 0) = rook ∧
          all_clear king_side_path_idx board opp_control_bitboard then
        [Move.mk expected_king_pos (expected_king_pos - 2) .CastelKingSide]
      else []
    let qs : List Move :=
      if Piece.fromCode (board.getD a_file_idx 0) = rook ∧
          all_clear queen_side_path_idx board opp_control_bitboard then
        [Move.mk expected_king_pos (expected_king_pos + 2) .CastelQueenSide]
      else []
    ks ++ qs

/-- The 8-direction loop of `generate_king_moves`. -/
def king_loop (board : List Nat) (current_piece_idx : Nat) (piece : Piece) :
    List SafeCoordinate → Option (List Move)
  | [] => some []
  | dir :: dirs => do
    let current := get_safe_coordinates_from_index current_piece_idx
    let target : SafeCoordinate := ⟨current.x + dir.x, current.y + dir.y⟩
    if target.is_out_of_bounds then
      king_loop board current_piece_idx piece dirs
    else do
      let idx ← get_square_isize target.x target.y
      let target_piece ← read_piece board idx
      if target_piece.piece_type ≠ .None ∧
          target_piece.piece_color = piece.piece_color then
        king_loop board current_piece_idx piece dirs
      else do
        let rest ← king_loop board current_piece_idx piece dirs
        some (⟨current_piece_idx, idx, .KingMove⟩ :: rest)

/-- `Board::generate_king_moves` (8 one-step directions, then castling). -/
def generate_king_moves (board : List Nat) (is_white_turn : Bool)
    (white_control black_control : BitBoard) (current_piece_idx : Nat)
    (piece : Piece) : Option (List Move) :=
  if piece.piece_type ≠ .King then none
  else do
    let res ← king_loop board current_piece_idx piece
      [⟨1, 1⟩, ⟨-1, 1⟩, ⟨1, -1⟩, ⟨-1, -1⟩, ⟨0, 1⟩, ⟨0, -1⟩, ⟨1, 0⟩, ⟨-1, 0⟩]
    some (res ++ generate_king_castle_moves board is_white_turn
      white_control black_control current_piece_idx piece)

/-- `Board::pawn_capture`; `dx = 1` is `PawnCaptureDirection::Right` and
`dx = -1` is `Left`. The outer `Option` models a panic, the inner one the
Rust `Option<Move>` result. -/
def pawn_capture (board : List Nat) (piece : Piece)
    (current_cord : SafeCoordinate) (dx : Int) : Option (Option Move) :=
  if current_cord.is_out_of_bounds then some none
  else
    let right_co : SafeCoordinate :=
      ⟨current_cord.x + dx,
        if piece.piece_color = .White then current_cord.y + 1
        else current_cord.y - 1⟩
    if right_co.is_out_of_bounds then some none
    else do
      let rc ← right_co.to_coordinate
      let sq ← get_square rc.x rc.y
      let right_piece ← read_piece board sq
      if right_piece.piece_color = piece.piece_color then some none
      else if right_piece.piece_type = .None then some none
      else do
        let right ← get_square_isize right_co.x right_co.y
        let cc ← current_cord.to_coordinate
        let fi ← get_index_from_coordinates cc
        some (some ⟨fi, right, .PawnCapture Option.none⟩)

/-- The `for d in dir` loop of `enpassant_capture`. The Rust `adj.y - 1`
for a Black capturer underflows `usize` when `adj.y = 0`, modelled as a
panic; the White case builds a `Coordinate` with `y = adj.y + 1` that can be
8, which then fails the `get_square` assertion. -/
def enpassant_loop (board : List Nat) (piece : Piece)
    (current_cord : SafeCoordinate) (last_move : Move) :
    List Int → Option (Option Move)
  | [] => some none
  | d :: ds => do
    let adj : SafeCoordinate := ⟨current_cord.x + d, current_cord.y⟩
    if adj.is_out_of_bounds then
      enpassant_loop board piece current_cord last_move ds
    else do
      let adjc ← adj.to_coordinate
      let sq ← get_square adjc.x adjc.y
      let adj_piece ← read_piece board sq
      if adj_piece.piece_type ≠ .Pawn then
        enpassant_loop board piece current_cord last_move ds
      else if adj_piece.piece_color = piece.piece_color then
        enpassant_loop board piece current_cord last_move ds
      else
        let last_move_cord := get_coordinates_from_index last_move.toIdx
        if last_move_cord.y = adjc.y ∧ last_move_cord.x = adjc.x then do
          let ey ←
            if piece.piece_color = .White then some (adjc.y + 1)
            else if adjc.y = 0 then none else some (adjc.y - 1)
          let end_pos : Coordinate := ⟨adjc.x, ey⟩
          let cc ← current_cord.to_coordinate
          let fi ← get_index_from_coordinates cc
          let ti ← get_index_from_coordinates end_pos
          some (some ⟨fi, ti, .PawnEnPassant last_move_cord⟩)
        else
          enpassant_loop board piece current_cord last_move ds

/-- `Board::enpassant_capture`. -/
def enpassant_capture (board : List Nat) (history : List Move) (piece : Piece)
    (current_cord : SafeCoordinate) : Option (Option Move) :=
  match history.getLast? with
  | Option.none => some none
  | some last_move =>
    if last_move.move_type ≠ .PawnDoublePush then some none
    else enpassant_loop board piece current_cord last_move [1, -1]

/-- `Board::generate_pawn_moves`: push, double push, the two flank captures,
then en passant. -/
def generate_pawn_moves (board : List Nat) (history : List Move)
    (current_piece_idx : Nat) (piece : Piece) : Option (List Move) :=
  if piece.piece_type ≠ .Pawn then none
  else do
    let co := get_safe_coordinates_from_index current_piece_idx
    let front_co : SafeCoordinate :=
      ⟨co.x, if piece.piece_color = .White then co.y + 1 else co.y - 1⟩
    let pushes ←
      if front_co.is_out_of_bounds then some []
      else do
        let front ← get_square front_co.x.toNat front_co.y.toNat
        let front_piece ← read_piece board front
        if front_piece.piece_type ≠ .None then some ([] : List Move)
        else
          let single := Move.mk current_piece_idx front (.PawnPush Option.none)
          if co.y = 1 ∧ piece.piece_color = .White then do
            let double_front ← get_square_isize front_co.x (front_co.y + 1)
            let dfp ← read_piece board double_front
            if dfp.piece_type = .None then
              some [single, Move.mk current_piece_idx double_front .PawnDoublePush]
            else some [single]
          else if co.y = 6 ∧ piece.piece_color = .Black then do
            let double_front ← get_square_isize front_co.x (front_co.y - 1)
            let dfp ← read_piece board double_front
            if dfp.piece_type = .None then
              some [single, Move.mk current_piece_idx double_front .PawnDoublePush]
            else some [single]
          else some [single]
    let capR ← pawn_capture board piece co 1
    let capL ← pawn_capture board piece co (-1)
    let ep ← enpassant_capture board history piece co
    some (pushes ++ capR.toList ++ capL.toList ++ ep.toList)

/-- The per-square dispatch inside `generate_moves_current_position`. -/
def generate_piece_moves_at (board : List Nat) (history : List Move)
    (is_white_turn : Bool) (white_control black_control : BitBoard)
    (i : Nat) (p : Piece) : Option (List Move) :=
  match p.piece_type with
  | .Pawn => generate_pawn_moves board history i p
  | .Rook => generate_rook_moves board i p
  | .Bishop => generate_bishop_moves board i p
  | .Queen => generate_queen_moves board i p
  | .Knight => generate_knight_moves board i p
  | .King =>
    generate_king_moves board is_white_turn white_control black_control i p
  | .None => some []

/-- The enumeration loop of `generate_moves_current_position`: squares in
ascending order, each square's moves appended to its piece's color's list. -/
def gen_all (board : List Nat) (history : List Move) (is_white_turn : Bool)
    (white_control black_control : BitBoard) :
    List (Nat × Nat) → Option (List Move × List Move)
  | [] => some ([], [])
  | (i, code) :: rest =>
    let p := Piece.fromCode code
    match p.piece_type with
    | .None => gen_all board history is_white_turn white_control black_control rest
    | _ => do
      let ms ← generate_piece_moves_at board history is_white_turn
        white_control black_control i p
      let (w, bl) ← gen_all board history is_white_turn white_control
        black_control rest
      match p.piece_color with
      | .White => some (ms ++ w, bl)
      | .Black => some (w, ms ++ bl)

/-- `Board::update_color_control_square_for_move`: marks the destination in
the given color's control bitboard unless the move is a pawn push, a pawn
double push or a king move. -/
def update_color_control_square_for_move (b : Board) (mov : Move)
    (color : PieceColor) : Board :=
  match mov.move_type with
  | .PawnPush _ => b
  | .PawnDoublePush => b
  | .KingMove => b
  | _ =>
    match color with
    | .White =>
      { b with white_control_bitboard := b.white_control_bitboard.set_bit mov.toIdx }
    | .Black =>
      { b with black_control_bitboard := b.black_control_bitboard.set_bit mov.toIdx }

/-- The replay loop at the end of `generate_moves_current_position`. -/
def replay_control (b : Board) (color : PieceColor) : List Move → Board
  | [] => b
  | m :: ms =>
    replay_control (update_color_control_square_for_move b m color) color ms

/-- `Board::generate_moves_current_position`: clears both per-side lists,
enumerates every square, then zeroes both control bitboards and replays the
full move list, attributing every control square to the side to move. -/
def Board.generate_moves_current_position (b : Board) : Option Board := do
  let turn := b.get_turn
  let (w, bl) ← gen_all b.board b.move_history b.is_white_turn
    b.white_control_bitboard b.black_control_bitboard b.board.enum
  let b1 : Board :=
    { b with
      white_current_moves := w
      black_current_moves := bl
      white_control_bitboard := ⟨0⟩
      black_control_bitboard := ⟨0⟩ }
  some (replay_control b1 turn (w ++ bl))

/-- `Board::get_bitboard_from_piece` followed by an in-place update of the
selected bitboard; the Rust function panics on a `None` piece type. -/
def Board.update_piece_bitboard (b : Board) (piece : Piece)
    (f : BitBoard → BitBoard) : Option Board :=
  match piece.piece_color, piece.piece_type with
  | .White, .Pawn => some { b with white_pawn_bitboard := f b.white_pawn_bitboard }
  | .White, .Rook => some { b with white_rook_bitboard := f b.white_rook_bitboard }
  | .White, .Knight => some { b with white_knight_bitboard := f b.white_knight_bitboard }
  | .White, .Bishop => some { b with white_bishop_bitboard := f b.white_bishop_bitboard }
  | .White, .Queen => some { b with white_queen_bitboard := f b.white_queen_bitboard }
  | .White, .King => some { b with white_king_bitboard := f b.white_king_bitboard }
  | .Black, .Pawn => some { b with black_pawn_bitboard := f b.black_pawn_bitboard }
  | .Black, .Rook => some { b with black_rook_bitboard := f b.black_rook_bitboard }
  | .Black, .Knight => some { b with black_knight_bitboard := f b.black_knight_bitboard }
  | .Black, .Bishop => some { b with black_bishop_bitboard := f b.black_bishop_bitboard }
  | .Black, .Queen => some { b with black_queen_bitboard := f b.black_queen_bitboard }
  | .Black, .King => some { b with black_king_bitboard := f b.black_king_bitboard }
  | _, .None => none

/-- `Board::move_piece`: relocates a piece; asserts the destination empty. -/
def Board.move_piece (b : Board) (current_move : Move) : Option Board := do
  let target ← b.get_piece_at_index current_move.toIdx
  if target.piece_type ≠ .None then none
  else do
    let piece ← b.get_piece_at_index current_move.fromIdx
    let b1 ← b.update_piece_bitboard piece
      (fun bb => (bb.clear_bit current_move.fromIdx).set_bit current_move.toIdx)
    let v := b1.board.getD current_move.fromIdx 0
    some { b1 with
      board := (b1.board.set current_move.toIdx v).set current_move.fromIdx 0 }

/-- `Board::capture_piece`: clears the destination's occupant; asserts the
destination occupied. -/
def Board.capture_piece (b : Board) (current_move : Move) : Option Board := do
  let target ← b.get_piece_at_index current_move.toIdx
  if target.piece_type = .None then none
  else do
    let b1 ← b.update_piece_bitboard target
      (fun bb => bb.clear_bit current_move.toIdx)
    some { b1 with board := b1.board.set current_move.toIdx 0 }

/-- `Board::promote_pawn`: only validates the requested promotion type; a
type outside Queen/Bishop/Knight/Rook panics, and nothing else happens. -/
def promote_pawn (promoting_to : PieceType) : Option Unit :=
  match promoting_to with
  | .Queen => some ()
  | .Bishop => some ()
  | .Knight => some ()
  | .Rook => some ()
  | _ => none

/-- The `match mo.move_type` dispatch of `make_move` (everything after the
three rejection checks and before the history push). -/
def Board.apply_move (b : Board) (piece target : Piece) (mo : Move) :
    Option Board :=
  match mo.move_type with
  | .PawnDoublePush => b.move_piece mo
  | .PawnPush promotion_piece => do
    (match promotion_piece with
     | some promoting_to => promote_pawn promoting_to
     | Option.none => some ())
    b.move_piece mo
  | .PawnEnPassant capture_piece_cord => do
    let pawn_to_capture_idx ← get_square capture_piece_cord.x capture_piece_cord.y
    let pawn_to_capture ← b.get_piece_at_index pawn_to_capture_idx
    if pawn_to_capture.piece_type ≠ .Pawn then none
    else if pawn_to_capture.piece_color = piece.piece_color then none
    else if target.piece_type ≠ .None then none
    else do
      let b1 ← b.update_piece_bitboard piece
        (fun bb => bb.clear_bit pawn_to_capture_idx)
      let b2 := { b1 with board := b1.board.set pawn_to_capture_idx 0 }
      b2.move_piece mo
  | .None => none
  | .PawnCapture promotion_piece => do
    (match promotion_piece with
     | some promoting_to => promote_pawn promoting_to
     | Option.none => some ())
    let b1 ← b.capture_piece mo
    b1.move_piece mo
  | .KingMove => do
    let b1 ← if target.piece_type ≠ .None then b.capture_piece mo else some b
    let b2 ← b1.move_piece mo
    some (if piece.piece_color = .White then
      { b2 with white_castling_right := ⟨0⟩ }
      else { b2 with black_castling_right := ⟨0⟩ })
  | .RookMove => do
    let b1 ← if target.piece_type ≠ .None then b.capture_piece mo else some b
    let b2 ← b1.move_piece mo
    some (if piece.piece_color = .White then
      { b2 with white_castling_right := b2.white_castling_right.clear_bit mo.fromIdx }
      else { b2 with black_castling_right := b2.black_castling_right.clear_bit mo.fromIdx })
  | .QueenMove => do
    let b1 ← if target.piece_type ≠ .None then b.capture_piece mo else some b
    b1.move_piece mo
  | .BishopMove => do
    let b1 ← if target.piece_type ≠ .None then b.capture_piece mo else some b
    b1.move_piece mo
  | .KnightMove => do
    let b1 ← if target.piece_type ≠ .None then b.capture_piece mo else some b
    b1.move_piece mo
  | .CastelKingSide => do
    if target.piece_type ≠ .None then none
    else if piece.piece_type ≠ .King then none
    else do
      let b1 ← b.move_piece mo
      let rook_pos : Nat := if piece.piece_color = .White then 0 else 56
      let new_rook_pos : Nat := mo.toIdx + 1
      let b2 ← b1.move_piece ⟨rook_pos, new_rook_pos, .None⟩
      some (if piece.piece_color = .White then
        { b2 with white_castling_right := ⟨0⟩ }
        else { b2 with black_castling_right := ⟨0⟩ })
  | .CastelQueenSide => do
    if target.piece_type ≠ .None then none
    else if piece.piece_type ≠ .King then none
    else do
      let b1 ← b.move_piece mo
      let rook_pos : Nat := if piece.piece_color = .White then 7 else 63
      let new_rook_pos ←
        if mo.toIdx = 0 then Option.none else some (mo.toIdx - 1)
      let b2 ← b1.move_piece ⟨rook_pos, new_rook_pos, .None⟩
      some (if piece.piece_color = .White then
        { b2 with white_castling_right := ⟨0⟩ }
        else { b2 with black_castling_right := ⟨0⟩ })

/-- `Board::make_move`: the three recoverable rejections return `false` with
the state untouched; an applied move returns `true` after appending the
resolved move to the history. -/
def Board.make_move (b : Board) (mfrom mto : Nat) : Option (Bool × Board) := do
  let piece ← b.get_piece_at_index mfrom
  let target ← b.get_piece_at_index mto
  if piece.piece_type = .None then some (false, b)
  else if piece.piece_color ≠ b.get_turn then some (false, b)
  else
    match b.is_move_avaliable mfrom mto with
    | Option.none => some (false, b)
    | some mo =>
      if mo.fromIdx ≠ mfrom then none
      else if mo.toIdx ≠ mto then none
      else do
        let b1 ← b.apply_move piece target mo
        some (true, { b1 with move_history := b1.move_history ++ [mo] })

/-- One placement arm of `load_position`: set the bit of the piece's
occupancy bitboard, write the piece code into the mailbox, step left. -/
def place_black_rook (b : Board) (idx : Nat) : Board × Nat :=
  ({ b with black_rook_bitboard := b.black_rook_bitboard.set_bit idx,
            board := b.board.set idx (PieceColor.Black.code ||| PieceType.Rook.code) },
    idx - 1)

/-- `load_position` arm for `'n'`. -/
def place_black_knight (b : Board) (idx : Nat) : Board × Nat :=
  ({ b with black_knight_bitboard := b.black_knight_bitboard.set_bit idx,
            board := b.board.set idx (PieceColor.Black.code ||| PieceType.Knight.code) },
    idx - 1)

/-- `load_position` arm for `'b'`. -/
def place_black_bishop (b : Board) (idx : Nat) : Board × Nat :=
  ({ b with black_bishop_bitboard := b.black_bishop_bitboard.set_bit idx,
            board := b.board.set idx (PieceColor.Black.code ||| PieceType.Bishop.code) },
    idx - 1)

/-- `load_position` arm for `'q'`. -/
def place_black_queen (b : Board) (idx : Nat) : Board × Nat :=
  ({ b with black_queen_bitboard := b.black_queen_bitboard.set_bit idx,
            board := b.board.set idx (PieceColor.Black.code ||| PieceType.Queen.code) },
    idx - 1)

/-- `load_position` arm for `'k'`. -/
def place_black_king (b : Board) (idx : Nat) : Board × Nat :=
  ({ b with black_king_bitboard := b.black_king_bitboard.set_bit idx,
            board := b.board.set idx (PieceColor.Black.code ||| PieceType.King.code) },
    idx - 1)

/-- `load_position` arm for `'p'`. -/
def place_black_pawn (b : Board) (idx : Nat) : Board × Nat :=
  ({ b with black_pawn_bitboard := b.black_pawn_bitboard.set_bit idx,
            board := b.board.set idx (PieceColor.Black.code ||| PieceType.Pawn.code) },
    idx - 1)

/-- `load_position` arm for `'R'`. -/
def place_white_rook (b : Board) (idx : Nat) : Board × Nat :=
  ({ b with white_rook_bitboard := b.white_rook_bitboard.set_bit idx,
            board := b.board.set idx (PieceColor.White.code ||| PieceType.Rook.code) },
    idx - 1)

/-- `load_position` arm for `'N'`. -/
def place_white_knight (b : Board) (idx : Nat) : Board × Nat :=
  ({ b with white_knight_bitboard := b.white_knight_bitboard.set_bit idx,
            board := b.board.set idx (PieceColor.White.code ||| PieceType.Knight.code) },
    idx - 1)

/-- `load_position` arm for `'B'`. -/
def place_white_bishop (b : Board) (idx : Nat) : Board × Nat :=
  ({ b with white_bishop_bitboard := b.white_bishop_bitboard.set_bit idx,
            board := b.board.set idx (PieceColor.White.code ||| PieceType.Bishop.code) },
    idx - 1)

/-- `load_position` arm for `'Q'`. -/
def place_white_queen (b : Board) (idx : Nat) : Board × Nat :=
  ({ b with white_queen_bitboard := b.white_queen_bitboard.set_bit idx,
            board := b.board.set idx (PieceColor.White.code ||| PieceType.Queen.code) },
    idx - 1)

/-- `load_position` arm for `'K'`. -/
def place_white_king (b : Board) (idx : Nat) : Board × Nat :=
  ({ b with white_king_bitboard := b.white_king_bitboard.set_bit idx,
            board := b.board.set idx (PieceColor.White.code ||| PieceType.King.code) },
    idx - 1)

/-- `load_position` arm for `'P'`. -/
def place_white_pawn (b : Board) (idx : Nat) : Board × Nat :=
  ({ b with white_pawn_bitboard := b.white_pawn_bitboard.set_bit idx,
            board := b.board.set idx (PieceColor.White.code ||| PieceType.Pawn.code) },
    idx - 1)

/-- One FEN character of `load_position`: returns the updated board and the
next index (`saturating_sub`, which is exactly `Nat` subtraction). `'/'` and
unrecognized characters both leave board and index untouched, the latter
after logging. -/
def load_char (b : Board) (idx : Nat) (c : Char) : Board × Nat :=
  if '1' ≤ c ∧ c ≤ '8' then (b, idx - (c.toNat - '0'.toNat))
  else if c = 'r' then place_black_rook b idx
  else if c = 'n' then place_black_knight b idx
  else if c = 'b' then place_black_bishop b idx
  else if c = 'q' then place_black_queen b idx
  else if c = 'k' then place_black_king b idx
  else if c = 'p' then place_black_pawn b idx
  else if c = 'R' then place_white_rook b idx
  else if c = 'N' then place_white_knight b idx
  else if c = 'B' then place_white_bishop b idx
  else if c = 'Q' then place_white_queen b idx
  else if c = 'K' then place_white_king b idx
  else if c = 'P' then place_white_pawn b idx
  else (b, idx)

/-- The character loop of `load_position` (`'/'` and unknown characters both
leave board and index untouched, the latter after logging). -/
def load_chars (b : Board) (idx : Nat) : List Char → Board × Nat
  | [] => (b, idx)
  | c :: cs =>
    let (b1, idx1) := load_char b idx c
    load_chars b1 idx1 cs

/-- `Board::load_position`: parse from index 63 downwards, then toggle the
turn and generate, toggle back and generate again. -/
def Board.load_position (b : Board) (fen : String) : Option Board := do
  let (b1, _) := load_chars b 63 fen.data
  let b2 := { b1 with is_white_turn := !b1.is_white_turn }
  let b3 ← b2.generate_moves_current_position
  let b4 := { b3 with is_white_turn := !b3.is_white_turn }
  b4.generate_moves_current_position

/-- All generated moves of the side to move matching `(from, to)` — the
candidate set a request resolves against. -/
def Board.matching_moves (b : Board) (mfrom mto : Nat) : List Move :=
  b.get_moves_for_turn.filter (fun m => m.fromIdx == mfrom && m.toIdx == mto)

/-- The move-error taxonomy of the `Result`-returning applier revision;
`game.rs` matches on `MoveError::MultipleLeagalMove(moves)`. -/
inductive MoveError
  | InvalidPiece
  | InvalidTurn
  | MoveNotAvaliable
  | MultipleLeagalMove (moves : List Move)
deriving DecidableEq

/-- Modelled from the spec: the `Result`-returning revision of the applier,
`make_move(from, to, promotion_choice?) -> Result<(), MoveError>`, which
`game.rs` calls (with `MoveError::MultipleLeagalMove` carrying the candidate
moves) but which is absent from `board.rs` in this tree. Per §4.4/§7: the
same three validations as `make_move`; a `(from, to)` pair that maps to more
than one distinct `MoveType` in the generated set with no (or no matching)
promotion choice is surfaced as an ambiguous-move error carrying the
candidates and applies nothing; otherwise the resolved move is applied
exactly as in `make_move`. -/
def Board.make_move_checked (b : Board) (mfrom mto : Nat)
    (promotion_choice : Option PieceType) : Option (Except MoveError Board) := do
  let piece ← b.get_piece_at_index mfrom
  let target ← b.get_piece_at_index mto
  if piece.piece_type = .None then some (Except.error .InvalidPiece)
  else if piece.piece_color ≠ b.get_turn then some (Except.error .InvalidTurn)
  else
    let candidates := b.matching_moves mfrom mto
    if ((candidates.map (fun m => m.move_type)).dedup.length ≤ 1) then
      match candidates with
      | [] => some (Except.error .MoveNotAvaliable)
      | mo :: _ => do
        let b1 ← b.apply_move piece target mo
        some (Except.ok { b1 with move_history := b1.move_history ++ [mo] })
    else
      let chosen : Option Move :=
        match promotion_choice with
        | Option.none => Option.none
        | some pt =>
          candidates.find? (fun m =>
            match m.move_type with
            | .PawnPush pp => pp == some pt
            | .PawnCapture pp => pp == some pt
            | _ => false)
      match chosen with
      | some mo => do
        let b1 ← b.apply_move piece target mo
        some (Except.ok { b1 with move_history := b1.move_history ++ [mo] })
      | Option.none => some (Except.error (.MultipleLeagalMove candidates))

/-- `true` for every move that is not one of the two castle moves. -/
def is_not_castle (m : Move) : Bool :=
  match m.move_type with
  | .CastelKingSide => false
  | .CastelQueenSide => false
  | _ => true

/-- Both per-side move lists with their castle moves removed. -/
def non_castle_lists (pr : List Move × List Move) : List Move × List Move :=
  (pr.1.filter is_not_castle, pr.2.filter is_not_castle)

/-! ## Concrete positions used by the individual claims -/

/-- The standard initial piece-placement string. -/
def initFen : String := "rnbqkbnr/pppppppp/8/8/8/8/PPPPPPPP/RNBQKBNR"

/-- The empty placement string (parses to no pieces at all). -/
def emptyFen : String := ""

/-- A position with a single black rook on square 0, White to move.
Mailbox code 12 = Black ||| Rook. -/
def boardC1 : Board :=
  { Board.new with
    board := (List.replicate 64 0).set 0 12
    black_rook_bitboard := ⟨1⟩ }

/-- Black king on its home square 59 and a white rook on square 0; Black has
no rook anywhere; White to move. Codes: 14 = Black king, 4 = White rook. -/
def boardC2 : Board :=
  { Board.new with
    board := ((List.replicate 64 0).set 59 14).set 0 4
    black_king_bitboard := ⟨2 ^ 59⟩
    white_rook_bitboard := ⟨1⟩ }

/-- Black to move right after White double-pushed a pawn from 12 to 28; a
black pawn sits adjacent on 27. Mailbox and bitboards agree. -/
def boardC3 : Board :=
  { Board.new with
    board := ((List.replicate 64 0).set 28 1).set 27 9
    white_pawn_bitboard := ⟨2 ^ 28⟩
    black_pawn_bitboard := ⟨2 ^ 27⟩
    move_history := [⟨12, 28, .PawnDoublePush⟩]
    is_white_turn := false }

/-- Same piece content as `boardC2` (black king on 59, white rook on 0),
used to compare the two generation runs of the loader. -/
def boardC7 : Board :=
  { Board.new with
    board := ((List.replicate 64 0).set 59 14).set 0 4
    black_king_bitboard := ⟨2 ^ 59⟩
    white_rook_bitboard := ⟨1⟩ }

/-- Black to move right after White double-pushed a pawn from 10 to 26; a
black pawn sits adjacent on 25. -/
def boardC8 : Board :=
  { Board.new with
    board := ((List.replicate 64 0).set 26 1).set 25 9
    white_pawn_bitboard := ⟨2 ^ 26⟩
    black_pawn_bitboard := ⟨2 ^ 25⟩
    move_history := [⟨10, 26, .PawnDoublePush⟩]
    is_white_turn := false }

/-- A white pawn one step from promotion whose current list carries the four
promotion-flavoured candidates for (48, 56), White to move. -/
def boardC6 : Board :=
  { Board.new with
    board := (List.replicate 64 0).set 48 1
    white_pawn_bitboard := ⟨2 ^ 48⟩
    white_current_moves :=
      [⟨48, 56, .PawnPush (some .Queen)⟩,
       ⟨48, 56, .PawnPush (some .Rook)⟩,
       ⟨48, 56, .PawnPush (some .Bishop)⟩,
       ⟨48, 56, .PawnPush (some .Knight)⟩] }

/-- A white knight on square 0 whose generated list holds the jump to 17. -/
def boardC9 : Board :=
  { Board.new with
    board := (List.replicate 64 0).set 0 2
    white_knight_bitboard := ⟨1⟩
    white_current_moves := [⟨0, 17, .KnightMove⟩] }

/-- The board `make_move` produces from `boardC9` for the request (0, 17)
(defined by evaluation; the witness checks the success flag by `decide`). -/
def boardC9post : Board :=
  match boardC9.make_move 0 17 with
  | some p => p.2
  | Option.none => boardC9



/-! ## Helper lemmas -/

/-- Decomposition of an `Option` bind hitting `some`. -/
theorem bind_some_iff {α β : Type} {x : Option α} {f : α → Option β} {y : β} :
    (x >>= f) = some y ↔ ∃ a, x = some a ∧ f a = some y := by
  cases x <;> simp

/-- `update_piece_bitboard` only rewrites one occupancy bitboard. -/
theorem update_piece_bitboard_turn {b : Board} {p : Piece} {f : BitBoard → BitBoard}
    {b1 : Board} (h : b.update_piece_bitboard p f = some b1) :
    b1.is_white_turn = b.is_white_turn := by
  unfold Board.update_piece_bitboard at h
  rcases p with ⟨pc, pt⟩
  cases pc <;> cases pt <;> simp_all <;> rw [← h]

/-- `move_piece` never touches the side-to-move flag. -/
theorem move_piece_turn {b : Board} {m : Move} {b1 : Board}
    (h : b.move_piece m = some b1) : b1.is_white_turn = b.is_white_turn := by
  unfold Board.move_piece at h
  rw [bind_some_iff] at h
  obtain ⟨target, hT, h⟩ := h
  split at h
  · exact absurd h (by simp)
  · rw [bind_some_iff] at h
    obtain ⟨piece, hP, h⟩ := h
    rw [bind_some_iff] at h
    obtain ⟨b2, hU, h⟩ := h
    have h3 := update_piece_bitboard_turn hU
    injection h with h
    rw [← h]
    exact h3

/-- `capture_piece` never touches the side-to-move flag. -/
theorem capture_piece_turn {b : Board} {m : Move} {b1 : Board}
    (h : b.capture_piece m = some b1) : b1.is_white_turn = b.is_white_turn := by
  unfold Board.capture_piece at h
  rw [bind_some_iff] at h
  obtain ⟨target, hT, h⟩ := h
  split at h
  · exact absurd h (by simp)
  · rw [bind_some_iff] at h
    obtain ⟨b2, hU, h⟩ := h
    have h3 := update_piece_bitboard_turn hU
    injection h with h
    rw [← h]
    exact h3

/-- No arm of the applier dispatch touches the side-to-move flag. -/
theorem apply_move_turn {b : Board} {piece target : Piece} {mo : Move} {b1 : Board}
    (h : b.apply_move piece target mo = some b1) :
    b1.is_white_turn = b.is_white_turn := by
  unfold Board.apply_move at h
  dsimp only at h
  split at h
  case _ => exact move_piece_turn h
  case _ promotion_piece =>
    rw [bind_some_iff] at h
    obtain ⟨u, hu, h⟩ := h
    exact move_piece_turn h
  case _ cpc =>
    rw [bind_some_iff] at h
    obtain ⟨idx, hidx, h⟩ := h
    rw [bind_some_iff] at h
    obtain ⟨ptc, hptc, h⟩ := h
    split at h
    · exact absurd h (by simp)
    · split at h
      · exact absurd h (by simp)
      · split at h
        · exact absurd h (by simp)
        · rw [bind_some_iff] at h
          obtain ⟨b2, hU, h⟩ := h
          have h3 := update_piece_bitboard_turn hU
          have h4 := move_piece_turn h
          rw [h4]
          exact h3
  case _ => exact absurd h (by simp)
  case _ promotion_piece =>
    rw [bind_some_iff] at h
    obtain ⟨u, hu, h⟩ := h
    rw [bind_some_iff] at h
    obtain ⟨b2, hc, h⟩ := h
    have h3 := capture_piece_turn hc
    have h4 := move_piece_turn h
    rw [h4]
    exact h3
  case _ =>
    split at h
    all_goals
      rw [bind_some_iff] at h
      obtain ⟨b2, hc, h⟩ := h
      rw [bind_some_iff] at h
      obtain ⟨b3, hm, h⟩ := h
      have h4 := move_piece_turn hm
      have h2 : b2.is_white_turn = b.is_white_turn := by
        first
        | exact capture_piece_turn hc
        | (injection hc with hc; rw [← hc])
      injection h with h
      rw [← h]
      split <;> (dsimp only; rw [h4, h2])
  case _ =>
    split at h
    all_goals
      rw [bind_some_iff] at h
      obtain ⟨b2, hc, h⟩ := h
      rw [bind_some_iff] at h
      obtain ⟨b3, hm, h⟩ := h
      have h4 := move_piece_turn hm
      have h2 : b2.is_white_turn = b.is_white_turn := by
        first
        | exact capture_piece_turn hc
        | (injection hc with hc; rw [← hc])
      injection h with h
      rw [← h]
      split <;> (dsimp only; rw [h4, h2])
  case _ =>
    split at h
    all_goals
      rw [bind_some_iff] at h
      obtain ⟨b2, hc, h⟩ := h
      have h2 : b2.is_white_turn = b.is_white_turn := by
        first
        | exact capture_piece_turn hc
        | (injection hc with hc; rw [← hc])
      have h4 := move_piece_turn h
      rw [h4]
      exact h2
  case _ =>
    split at h
    all_goals
      rw [bind_some_iff] at h
      obtain ⟨b2, hc, h⟩ := h
      have h2 : b2.is_white_turn = b.is_white_turn := by
        first
        | exact capture_piece_turn hc
        | (injection hc with hc; rw [← hc])
      have h4 := move_piece_turn h
      rw [h4]
      exact h2
  case _ =>
    split at h
    all_goals
      rw [bind_some_iff] at h
      obtain ⟨b2, hc, h⟩ := h
      have h2 : b2.is_white_turn = b.is_white_turn := by
        first
        | exact capture_piece_turn hc
        | (injection hc with hc; rw [← hc])
      have h4 := move_piece_turn h
      rw [h4]
      exact h2
  case _ =>
    split at h
    · exact absurd h (by simp)
    · split at h
      · exact absurd h (by simp)
      · rw [bind_some_iff] at h
        obtain ⟨b2, hm1, h⟩ := h
        rw [bind_some_iff] at h
        obtain ⟨b3, hm2, h⟩ := h
        have h4 := move_piece_turn hm1
        have h5 := move_piece_turn hm2
        injection h with h
        rw [← h]
        split <;> (dsimp only; rw [h5, h4])
  case _ =>
    split at h
    · exact absurd h (by simp)
    · split at h
      · exact absurd h (by simp)
      · rw [bind_some_iff] at h
        obtain ⟨b2, hm1, h⟩ := h
        split at h
        · exact absurd h (by simp)
        · rw [bind_some_iff] at h
          obtain ⟨nrp, hnrp, h⟩ := h
          rw [bind_some_iff] at h
          obtain ⟨b3, hm2, h⟩ := h
          have h4 := move_piece_turn hm1
          have h5 := move_piece_turn hm2
          injection h with h
          rw [← h]
          split <;> (dsimp only; rw [h5, h4])

/-- `update_color_control_square_for_move` leaves the turn flag alone. -/
theorem update_color_control_turn {b : Board} {mov : Move} {color : PieceColor} :
    (update_color_control_square_for_move b mov color).is_white_turn = b.is_white_turn := by
  unfold update_color_control_square_for_move
  split
  · rfl
  · rfl
  · rfl
  · split <;> rfl

/-- The control replay leaves the turn flag alone. -/
theorem replay_control_turn :
    ∀ (ms : List Move) (b : Board) (color : PieceColor),
      (replay_control b color ms).is_white_turn = b.is_white_turn := by
  intro ms
  induction ms with
  | nil => intro b color; rfl
  | cons m ms ih =>
    intro b color
    rw [replay_control, ih]
    exact update_color_control_turn

/-- Move generation rewrites lists and control bitboards, never the turn. -/
theorem generate_turn {b b1 : Board}
    (h : b.generate_moves_current_position = some b1) :
    b1.is_white_turn = b.is_white_turn := by
  unfold Board.generate_moves_current_position at h
  dsimp only at h
  rw [bind_some_iff] at h
  obtain ⟨p, hp, h⟩ := h
  rcases p with ⟨w, bl⟩
  dsimp only at h
  injection h with h
  rw [← h, replay_control_turn]

/-- Each arm of `load_char` leaves the side-to-move flag untouched. -/
theorem load_char_turn (b : Board) (idx : Nat) (c : Char) :
    (load_char b idx c).1.is_white_turn = b.is_white_turn := by
  unfold load_char
  by_cases h1 : ('1' ≤ c ∧ c ≤ '8')
  · rw [if_pos h1]
  · rw [if_neg h1]
    by_cases h2 : c = 'r'
    · rw [if_pos h2]; rfl
    · rw [if_neg h2]
      by_cases h3 : c = 'n'
      · rw [if_pos h3]; rfl
      · rw [if_neg h3]
        by_cases h4 : c = 'b'
        · rw [if_pos h4]; rfl
        · rw [if_neg h4]
          by_cases h5 : c = 'q'
          · rw [if_pos h5]; rfl
          · rw [if_neg h5]
            by_cases h6 : c = 'k'
            · rw [if_pos h6]; rfl
            · rw [if_neg h6]
              by_cases h7 : c = 'p'
              · rw [if_pos h7]; rfl
              · rw [if_neg h7]
                by_cases h8 : c = 'R'
                · rw [if_pos h8]; rfl
                · rw [if_neg h8]
                  by_cases h9 : c = 'N'
                  · rw [if_pos h9]; rfl
                  · rw [if_neg h9]
                    by_cases h10 : c = 'B'
                    · rw [if_pos h10]; rfl
                    · rw [if_neg h10]
                      by_cases h11 : c = 'Q'
                      · rw [if_pos h11]; rfl
                      · rw [if_neg h11]
                        by_cases h12 : c = 'K'
                        · rw [if_pos h12]; rfl
                        · rw [if_neg h12]
                          by_cases h13 : c = 'P'
                          · rw [if_pos h13]; rfl
                          · rw [if_neg h13]


/-- The whole character loop leaves the side-to-move flag untouched. -/
theorem load_chars_turn :
    ∀ (cs : List Char) (b : Board) (idx : Nat),
      (load_chars b idx cs).1.is_white_turn = b.is_white_turn := by
  intro cs
  induction cs with
  | nil => intro b idx; rfl
  | cons c cs ih =>
    intro b idx
    rw [load_chars]
    have hc := load_char_turn b idx c
    rcases hlc : load_char b idx c with ⟨b1, idx1⟩
    rw [hlc] at hc
    dsimp only
    rw [ih b1 idx1]
    simpa using hc


/-- Reducing a bind whose first argument is `some`. -/
theorem some_bind {α β : Type} (a : α) (f : α → Option β) :
    (some a >>= f) = f a := rfl

/-- Every move produced by castle generation is a castle move, so filtering
them away leaves nothing. -/
theorem castle_moves_filtered (board : List Nat) (iwt : Bool)
    (wc bc : BitBoard) (i : Nat) (p : Piece) :
    (generate_king_castle_moves board iwt wc bc i p).filter is_not_castle = [] := by
  unfold generate_king_castle_moves
  dsimp only
  repeat' (first | rfl | rw [List.filter_append] | split)

/-- The enumeration loop is blind to the side to move once castle moves are
filtered out: only king castle generation reads the flag. -/
theorem gen_all_filter_turn_indep (board : List Nat) (history : List Move)
    (wc bc : BitBoard) :
    ∀ lst : List (Nat × Nat),
      (gen_all board history true wc bc lst).map non_castle_lists
      = (gen_all board history false wc bc lst).map non_castle_lists := by
  intro lst
  induction lst with
  | nil => rfl
  | cons head rest ih =>
    rcases head with ⟨i, code⟩
    have tail : ∀ (ms1 ms2 : List Move),
        ms1.filter is_not_castle = ms2.filter is_not_castle →
        ((gen_all board history true wc bc rest).bind (fun pr =>
          match (Piece.fromCode code).piece_color with
          | .White => some (ms1 ++ pr.1, pr.2)
          | .Black => some (pr.1, ms1 ++ pr.2))).map non_castle_lists
        = ((gen_all board history false wc bc rest).bind (fun pr =>
          match (Piece.fromCode code).piece_color with
          | .White => some (ms2 ++ pr.1, pr.2)
          | .Black => some (pr.1, ms2 ++ pr.2))).map non_castle_lists := by
      intro ms1 ms2 hms
      cases h1 : gen_all board history true wc bc rest with
      | none =>
        cases h2 : gen_all board history false wc bc rest with
        | none => rfl
        | some pr2 => rw [h1, h2] at ih; simp at ih
      | some pr1 =>
        cases h2 : gen_all board history false wc bc rest with
        | none => rw [h1, h2] at ih; simp at ih
        | some pr2 =>
          rw [h1, h2] at ih
          rcases pr1 with ⟨w1, bl1⟩
          rcases pr2 with ⟨w2, bl2⟩
          simp only [Option.map_some', non_castle_lists, Option.some.injEq,
            Prod.mk.injEq] at ih
          obtain ⟨ihw, ihb⟩ := ih
          cases hcol : (Piece.fromCode code).piece_color <;>
            simp [non_castle_lists, List.filter_append, ihw, ihb, hms]
    rw [gen_all, gen_all]
    dsimp only
    cases hp : (Piece.fromCode code).piece_type with
    | None => simp only [hp]; exact ih
    | Pawn =>
      simp only [hp, generate_piece_moves_at]
      cases hg : generate_pawn_moves board history i (Piece.fromCode code) with
      | none => rfl
      | some ms => exact tail ms ms rfl
    | Rook =>
      simp only [hp, generate_piece_moves_at]
      cases hg : generate_rook_moves board i (Piece.fromCode code) with
      | none => rfl
      | some ms => exact tail ms ms rfl
    | Bishop =>
      simp only [hp, generate_piece_moves_at]
      cases hg : generate_bishop_moves board i (Piece.fromCode code) with
      | none => rfl
      | some ms => exact tail ms ms rfl
    | Queen =>
      simp only [hp, generate_piece_moves_at]
      cases hg : generate_queen_moves board i (Piece.fromCode code) with
      | none => rfl
      | some ms => exact tail ms ms rfl
    | Knight =>
      simp only [hp, generate_piece_moves_at]
      cases hg : generate_knight_moves board i (Piece.fromCode code) with
      | none => rfl
      | some ms => exact tail ms ms rfl
    | King =>
      simp only [hp, generate_piece_moves_at, generate_king_moves]
      rw [if_neg (by simp)]
      cases hkl : king_loop board i (Piece.fromCode code)
        [⟨1, 1⟩, ⟨-1, 1⟩, ⟨1, -1⟩, ⟨-1, -1⟩, ⟨0, 1⟩, ⟨0, -1⟩, ⟨1, 0⟩, ⟨-1, 0⟩] with
      | none => rfl
      | some res =>
        refine tail _ _ ?_
        rw [List.filter_append, List.filter_append,
          castle_moves_filtered board true wc bc i (Piece.fromCode code),
          castle_moves_filtered board false wc bc i (Piece.fromCode code)]

/-- `update_color_control_square_for_move` leaves the move lists alone. -/
theorem update_color_control_moves (b : Board) (mov : Move) (color : PieceColor) :
    (update_color_control_square_for_move b mov color).white_current_moves
      = b.white_current_moves ∧
    (update_color_control_square_for_move b mov color).black_current_moves
      = b.black_current_moves := by
  unfold update_color_control_square_for_move
  split
  · exact ⟨rfl, rfl⟩
  · exact ⟨rfl, rfl⟩
  · exact ⟨rfl, rfl⟩
  · split <;> exact ⟨rfl, rfl⟩

/-- The control replay leaves the move lists alone. -/
theorem replay_control_moves :
    ∀ (ms : List Move) (b : Board) (color : PieceColor),
      (replay_control b color ms).white_current_moves = b.white_current_moves ∧
      (replay_control b color ms).black_current_moves = b.black_current_moves := by
  intro ms
  induction ms with
  | nil => intro b color; exact ⟨rfl, rfl⟩
  | cons m ms ih =>
    intro b color
    rw [replay_control]
    obtain ⟨hw, hb⟩ := ih (update_color_control_square_for_move b m color) color
    obtain ⟨hw2, hb2⟩ := update_color_control_moves b m color
    exact ⟨hw.trans hw2, hb.trans hb2⟩

/-- White-list component of `replay_control_moves`. -/
theorem replay_control_white (ms : List Move) (b : Board) (color : PieceColor) :
    (replay_control b color ms).white_current_moves = b.white_current_moves :=
  (replay_control_moves ms b color).1

/-- Black-list component of `replay_control_moves`. -/
theorem replay_control_black (ms : List Move) (b : Board) (color : PieceColor) :
    (replay_control b color ms).black_current_moves = b.black_current_moves :=
  (replay_control_moves ms b color).2

/-! ## Claim theorems -/

/-- C1. The spec claims each generated move's destination is marked in the
mover's color's control bitboard. In the code the replay loop passes the
side to move for every move of both colors: with only a black rook on the
board and White to move, all 14 rook destinations land in White's control
bitboard and Black's stays zero. -/
theorem c1_control_attributed_to_turn_not_mover :
    (boardC1.generate_moves_current_position).map (fun b =>
      (b.white_current_moves.length, b.white_control_bitboard.inner,
       b.black_current_moves.length, b.black_control_bitboard.inner))
    = some (0, 72340172838076926, 14, 0) := by decide

/-- C2. The spec claims a king-side castle appears in a color's list only if
that color's rook stands on that color's corner. With White to move, a black
king on 59 and no black rook at all, the code still pushes Black's king-side
castle 59 → 57 because the rook check is keyed on the side to move (it finds
the white rook on square 0). -/
theorem c2_castle_generated_without_own_rook :
    (boardC2.generate_moves_current_position).map (fun b =>
      (b.black_current_moves.contains ⟨59, 57, .CastelKingSide⟩,
       b.black_rook_bitboard.inner))
    = some (true, 0) := by decide

/-- C3. Mailbox/bitboard consistency holds in `boardC3` and the en-passant
capture 27 → 20 is legal there, yet after `make_move` the white pawn's
occupancy bit on square 28 is still set while the mailbox entry is 0: the
branch clears the captured square from the mover's bitboard instead. -/
theorem c3_en_passant_desyncs_mailbox_and_bitboards :
    ((boardC3.generate_moves_current_position.bind
        (fun b1 => b1.make_move 27 20)).map
      (fun p => (p.1, p.2.white_pawn_bitboard.get_bit 28, p.2.board.getD 28 99)))
    = some (true, true, 0) := by decide

/-- C5. After `load_position` with the standard initial placement, White's
generated list has exactly 20 moves — 8 single pawn pushes, 8 double pushes
and 4 knight moves — and Black's list is generated and non-empty. -/
theorem c5_initial_position_twenty_moves :
    ((Board.new.load_position initFen).map (fun b =>
      (b.white_current_moves.length,
       b.white_current_moves.countP (fun m =>
         match m.move_type with | .PawnPush _ => true | _ => false),
       b.white_current_moves.countP (fun m => m.move_type == .PawnDoublePush),
       b.white_current_moves.countP (fun m => m.move_type == .KnightMove),
       b.black_current_moves.isEmpty)))
    = some (20, 8, 8, 4, false) := by decide

/-- C7 counterexample. Fixing the board content of `boardC7` and flipping
only the side-to-move flag changes Black's generated move list (the castle
59 → 57 appears only when White is to move), so generation does consult the
side to move. -/
theorem c7_generation_consults_turn :
    ((Board.generate_moves_current_position
        { boardC7 with is_white_turn := true }).map
      (fun b => b.black_current_moves))
    ≠ ((Board.generate_moves_current_position
        { boardC7 with is_white_turn := false }).map
      (fun b => b.black_current_moves)) := by decide

/-- C8. After White's double push 10 → 26 with a black pawn adjacent on 25,
Black's generated moves do include the en-passant capture 25 → 18 recording
the captured pawn's square (2,3); but applying it leaves the white pawn's
occupancy bit on 26 set (only the mailbox entry is cleared), because the
branch clears the mover's bitboard instead of the white pawn's. -/
theorem c8_en_passant_leaves_white_pawn_bit :
    ((boardC8.generate_moves_current_position).map (fun b =>
        b.black_current_moves.contains ⟨25, 18, .PawnEnPassant ⟨2, 3⟩⟩)
      = some true)
    ∧ ((boardC8.generate_moves_current_position.bind
          (fun b1 => b1.make_move 25 18)).map
        (fun p => (p.1, p.2.board.getD 26 99, p.2.white_pawn_bitboard.get_bit 26)))
      = some (true, 0, true) :=
  ⟨by decide, by decide⟩

/-- C4. If the origin holds no piece, or a piece of the side not to move, or
the pair is absent from the generated list for the side to move, `make_move`
returns `false` and the returned state is the input state, every component
included. -/
theorem c4_invalid_request_rejected_state_unchanged (b : Board)
    (mfrom mto : Nat) (p q : Piece)
    (hf : b.get_piece_at_index mfrom = some p)
    (ht : b.get_piece_at_index mto = some q)
    (h : p.piece_type = .None ∨ p.piece_color ≠ b.get_turn ∨
         b.is_move_avaliable mfrom mto = none) :
    b.make_move mfrom mto = some (false, b) := by
  unfold Board.make_move
  rw [hf]
  show (b.get_piece_at_index mto >>= _) = _
  rw [ht]
  show (if p.piece_type = PieceType.None then some (false, b) else _) = _
  by_cases hn : p.piece_type = PieceType.None
  · rw [if_pos hn]
  · rw [if_neg hn]
    by_cases hc : p.piece_color = b.get_turn
    · have h3 : b.is_move_avaliable mfrom mto = none := by
        rcases h with h1 | h2 | h3
        · exact absurd h1 hn
        · exact absurd hc h2
        · exact h3
      rw [if_neg (by simp [hc])]
      rw [h3]
    · rw [if_pos hc]

/-- C4 witness: on a fresh board the origin square 0 is empty, so the
request (0, 1) is rejected with the state returned unchanged. -/
theorem c4_invalid_request_rejected_state_unchanged_witness :
    Board.new.get_piece_at_index 0 = some ⟨.White, .None⟩ ∧
    Board.new.make_move 0 1 = some (false, Board.new) :=
  ⟨by decide,
    c4_invalid_request_rejected_state_unchanged Board.new 0 1
      ⟨.White, .None⟩ ⟨.White, .None⟩ (by decide) (by decide) (Or.inl rfl)⟩

/-- C9. `make_move` never modifies the side-to-move flag, whether the move
is applied or rejected; only `toggle_turn` changes it. -/
theorem c9_make_move_preserves_turn (b : Board) (mfrom mto : Nat) (r : Bool)
    (b1 : Board) (h : b.make_move mfrom mto = some (r, b1)) :
    b1.is_white_turn = b.is_white_turn := by
  unfold Board.make_move at h
  rw [bind_some_iff] at h
  obtain ⟨piece, hP, h⟩ := h
  rw [bind_some_iff] at h
  obtain ⟨target, hT, h⟩ := h
  split at h
  · injection h with h; injection h with h1 h2; rw [← h2]
  · split at h
    · injection h with h; injection h with h1 h2; rw [← h2]
    · split at h
      · injection h with h; injection h with h1 h2; rw [← h2]
      · split at h
        · exact absurd h (by simp)
        · split at h
          · exact absurd h (by simp)
          · rw [bind_some_iff] at h
            obtain ⟨b2, hA, h⟩ := h
            have h3 := apply_move_turn hA
            injection h with h
            injection h with h1 h2
            rw [← h2]
            exact h3

/-- C9 witness: the successful knight move (0, 17) on `boardC9` leaves the
side to move unchanged. -/
theorem c9_make_move_preserves_turn_witness :
    boardC9.make_move 0 17 = some (true, boardC9post) ∧
    boardC9post.is_white_turn = boardC9.is_white_turn :=
  ⟨by decide,
    c9_make_move_preserves_turn boardC9 0 17 true boardC9post (by decide)⟩

/-- C10. Whenever `load_position` returns, the side to move equals the side
to move before the call: the two toggles around the two generation runs
cancel and nothing else writes the flag. -/
theorem c10_load_position_preserves_turn (b : Board) (fen : String)
    (b1 : Board) (h : b.load_position fen = some b1) :
    b1.is_white_turn = b.is_white_turn := by
  unfold Board.load_position at h
  rcases hlc : load_chars b 63 fen.data with ⟨bl, idxl⟩
  rw [hlc] at h
  dsimp only at h
  rw [bind_some_iff] at h
  obtain ⟨b3, hg, h⟩ := h
  have h1 : bl.is_white_turn = b.is_white_turn := by
    have h0 := load_chars_turn fen.data b 63
    rw [hlc] at h0
    simpa using h0
  have hA : b1.is_white_turn = !b3.is_white_turn := by
    simpa using generate_turn h
  have hB : b3.is_white_turn = !bl.is_white_turn := by
    simpa using generate_turn hg
  rw [hA, hB, Bool.not_not, h1]

/-- C10 witness: loading the empty placement string on a fresh board
returns the fresh board itself, and White is still to move. -/
theorem c10_load_position_preserves_turn_witness :
    Board.new.load_position emptyFen = some Board.new ∧
    Board.new.is_white_turn = Board.new.is_white_turn :=
  ⟨by decide,
    c10_load_position_preserves_turn Board.new emptyFen Board.new (by decide)⟩

/-- C6 (spec-modelled applier). When the requested pair maps to more than
one distinct `MoveType` in the generated set for the side to move and no
promotion choice is supplied, the checked applier surfaces the ambiguity as
a distinct error carrying the candidate moves and applies nothing. -/
theorem c6_ambiguous_promotion_surfaced (b : Board) (mfrom mto : Nat)
    (p q : Piece)
    (hf : b.get_piece_at_index mfrom = some p)
    (ht : b.get_piece_at_index mto = some q)
    (hn : p.piece_type ≠ .None)
    (hc : p.piece_color = b.get_turn)
    (hamb : 1 < ((b.matching_moves mfrom mto).map
      (fun m => m.move_type)).dedup.length) :
    b.make_move_checked mfrom mto Option.none
      = some (Except.error (.MultipleLeagalMove (b.matching_moves mfrom mto))) := by
  unfold Board.make_move_checked
  rw [hf]
  show (b.get_piece_at_index mto >>= _) = _
  rw [ht]
  show (if p.piece_type = PieceType.None then _ else _) = _
  rw [if_neg hn]
  rw [if_neg (by simp [hc])]
  dsimp only
  rw [if_neg (Nat.not_le.mpr hamb)]

/-- C6 witness: `boardC6` maps (48, 56) to four distinct promotion-flavoured
pawn pushes; with no promotion choice the checked applier reports them. -/
theorem c6_ambiguous_promotion_surfaced_witness :
    1 < ((boardC6.matching_moves 48 56).map
      (fun m => m.move_type)).dedup.length ∧
    boardC6.make_move_checked 48 56 Option.none
      = some (Except.error (.MultipleLeagalMove (boardC6.matching_moves 48 56))) :=
  ⟨by decide,
    c6_ambiguous_promotion_surfaced boardC6 48 56 ⟨.White, .Pawn⟩
      ⟨.White, .None⟩ (by decide) (by decide) (by decide) (by decide)
      (by decide)⟩

/-- C7 amended. Excluding castle moves, move generation does not consult the
side-to-move flag: for every fixed board content, the two runs (White to
move vs Black to move) produce the same white and the same black move lists
once castle moves are filtered out. Castle-move generation and the
control-bitboard attribution do consult the flag, which is what the
counterexample exhibits. -/
theorem c7_amended_non_castle_generation_turn_blind (b : Board) :
    (Board.generate_moves_current_position { b with is_white_turn := true }).map
      (fun x => non_castle_lists (x.white_current_moves, x.black_current_moves))
    = (Board.generate_moves_current_position { b with is_white_turn := false }).map
      (fun x => non_castle_lists (x.white_current_moves, x.black_current_moves)) := by
  unfold Board.generate_moves_current_position
  dsimp only
  have main := gen_all_filter_turn_indep b.board b.move_history
    b.white_control_bitboard b.black_control_bitboard b.board.enum
  cases h1 : gen_all b.board b.move_history true b.white_control_bitboard
      b.black_control_bitboard b.board.enum with
  | none =>
    cases h2 : gen_all b.board b.move_history false b.white_control_bitboard
        b.black_control_bitboard b.board.enum with
    | none => rfl
    | some pr2 => rw [h1, h2] at main; simp at main
  | some pr1 =>
    cases h2 : gen_all b.board b.move_history false b.white_control_bitboard
        b.black_control_bitboard b.board.enum with
    | none => rw [h1, h2] at main; simp at main
    | some pr2 =>
      rw [h1, h2] at main
      rcases pr1 with ⟨w1, bl1⟩
      rcases pr2 with ⟨w2, bl2⟩
      simp only [Option.map_some', Option.some.injEq] at main
      simp only [some_bind, Option.map_some', replay_control_white,
        replay_control_black]
      exact congrArg some main

end Ruche
